import Mathlib

/-!
Verification of the nnabla-rl model-trainer core against its specification.

The definitions below are shallow embeddings of the Python source:
tensors are modelled row-wise as functions from a natural-number batch
index to exact rationals, machine floats become exact rationals (or reals
where a square root occurs), and fallible code returns `Except`.
-/

set_option maxHeartbeats 1000000

/-- `NF.clip_by_value(x, lo, hi)`: elementwise clipping. -/
def clipv (x lo hi : ℚ) : ℚ := min (max x lo) hi

namespace C51

/-- `delta_z = (v_max - v_min) / (N - 1)` from `_ValueDistributionFunctionDDQNTraining`. -/
def delta_z (N : ℕ) (v_min v_max : ℚ) : ℚ := (v_max - v_min) / ((N : ℚ) - 1)

/-- The clipped continuous bin index `bj = clip((Tz - v_min)/delta_z, 0, N-1)`
computed at the start of `_compute_projection`. -/
def bjOf (N : ℕ) (v_min v_max : ℚ) (tz : ℚ) : ℚ :=
  clipv ((tz - v_min) / delta_z N v_min v_max) 0 ((N : ℚ) - 1)

/-- `NF.scatter_add(base, indices, values, axis=-1)` restricted to one sample row:
adds `values j` at position `indices j` for each of the `N` atoms. -/
def scatter_add (base : ℤ → ℚ) (N : ℕ) (indices : ℕ → ℤ) (values : ℕ → ℚ) : ℤ → ℚ :=
  fun i => base i + ∑ j in Finset.range N, if indices j = i then values j else 0

/-- `_ValueDistributionFunctionDDQNTraining._compute_projection` for one sample row:
`Tz` are the clipped target atom positions and `pj` the corresponding input
probabilities.  Mirrors the source: `lower = floor(bj)`, `mu_indices = ceil(bj)`,
then `upper` is reassigned to `1 + lower` before the two scatter-adds. -/
def compute_projection (N : ℕ) (v_min v_max : ℚ) (Tz pj : ℕ → ℚ) : ℤ → ℚ :=
  let bj := fun j => bjOf N v_min v_max (Tz j)
  let lower := fun j => ⌊bj j⌋
  let ml_indices := lower
  let mu_indices := fun j => ⌈bj j⌉
  let mi : ℤ → ℚ := fun _ => 0
  let upper := fun j => 1 + lower j
  let result_upper := scatter_add mi N ml_indices (fun j => pj j * (((upper j : ℤ) : ℚ) - bj j))
  let result_lower := scatter_add mi N mu_indices (fun j => pj j * (bj j - ((lower j : ℤ) : ℚ)))
  fun i => result_upper i + result_lower i

/-- The fixed support atom `z i = v_min + i * delta_z`. -/
def z_support (N : ℕ) (v_min v_max : ℚ) (i : ℕ) : ℚ := v_min + (i : ℚ) * delta_z N v_min v_max

/-- `_ValueDistributionFunctionDDQNTraining.compute_target` for one sample row:
builds the unprojected atoms `reward + non_terminal * gamma * z`, clips them to
`[v_min, v_max]` and projects.  `pj` is the target-network atom probability
vector of the greedy action (an input here). -/
def compute_target (N : ℕ) (v_min v_max gamma reward non_terminal : ℚ) (pj : ℕ → ℚ) : ℤ → ℚ :=
  let Tz := fun j => clipv (reward + non_terminal * gamma * z_support N v_min v_max j) v_min v_max
  compute_projection N v_min v_max Tz pj

/-- Modelled from the spec: the "clipped, binned" distribution of a single
deterministic return value `t` — the point mass at `t` mapped to a bin index,
split between the floor bin (mass `(1 + floor b) - b`, the enforced
`ceil = floor + 1` tie-break) and the ceiling bin (mass `b - floor b`). -/
def specBinnedReturn (N : ℕ) (v_min v_max t : ℚ) : ℤ → ℚ :=
  let b := bjOf N v_min v_max t
  fun i => (if ⌊b⌋ = i then (1 + (⌊b⌋ : ℚ)) - b else 0) + (if ⌈b⌉ = i then b - (⌊b⌋ : ℚ) else 0)

end C51

namespace Trainer

/-- Observable state of a `ModelTrainer`: whether `setup_training` installed
models, the `_train_count` counter, the batch size of the currently allocated
`TrainingVariables` (`none` before setup), the list of batch sizes for which
the training graph was (re)built, and counters for the `before_update` /
`after_update` hooks and the `_update_model` gradient steps. -/
structure TrainerState where
  models : Option (List String)
  train_count : ℕ
  tv_batch_size : Option ℕ
  graph_builds : List ℕ
  hook_before : ℕ
  hook_after : ℕ
  updates : ℕ
deriving DecidableEq

/-- `ModelTrainer.setup_training`: installs the models, allocates
`TrainingVariables` with batch size 1 and builds the training graph. -/
def setup_training (st : TrainerState) (ms : List String) : TrainerState :=
  { st with models := some ms, tv_batch_size := some 1, graph_builds := st.graph_builds ++ [1] }

/-- `ModelTrainer.train`: raises before setup; otherwise increments
`_train_count`, compares the incoming batch's leading state dimension with the
allocated `TrainingVariables.batch_size`, reallocates the variables and rebuilds
the graph exactly when they differ, then runs the `before_update` hook, one
model update, and the `after_update` hook.  An error carries the state at raise
time (Python leaves the object untouched when the first line raises). -/
def train (st : TrainerState) (batch_size : ℕ) : Except (String × TrainerState) TrainerState :=
  match st.models with
  | none => .error ("Call setup_training() first. Model is not set!", st)
  | some _ =>
    let st1 := { st with train_count := st.train_count + 1 }
    match st1.tv_batch_size with
    | none => .error ("AttributeError", st1)
    | some prev =>
      let st2 := if batch_size ≠ prev
                 then { st1 with tv_batch_size := some batch_size,
                                 graph_builds := st1.graph_builds ++ [batch_size] }
                 else st1
      let st3 := { st2 with hook_before := st2.hook_before + 1 }
      let st4 := { st3 with updates := st3.updates + 1 }
      let st5 := { st4 with hook_after := st4.hook_after + 1 }
      .ok st5

end Trainer

namespace DDQN

/-- A call event on a Q-function model: which named model was asked for
`argmax_q` or for `q`. -/
inductive FunctionCall (S A : Type) where
  | argmaxQ (model : String) (state : S)
  | qValue (model : String) (state : S) (action : A)
deriving DecidableEq

/-- A Q-function model as used by `_QFunctionDDQNTraining`: a name (identity)
plus its `argmax_q` and `q` evaluation maps.  `q` returns a `(batch, 1)`
tensor, modelled row-wise. -/
structure QFunctionModel (S A : Type) where
  name : String
  argmax_q : S → A
  q : S → A → ℕ → ℚ

/-- `_QFunctionDDQNTraining.compute_target`, instrumented with the list of
model invocations it performs: `a_next = train.argmax_q(s_next)` then
`double_q_target = target.q(s_next, a_next)`, returning
`reward + gamma * non_terminal * double_q_target`. -/
def compute_target (S A : Type) (train_function target_function : QFunctionModel S A)
    (gamma : ℚ) (reward non_terminal : ℕ → ℚ) (s_next : S) :
    (ℕ → ℚ) × List (FunctionCall S A) :=
  let a_next := train_function.argmax_q s_next
  let double_q_target := target_function.q s_next a_next
  (fun i => reward i + gamma * non_terminal i * double_q_target i,
   [FunctionCall.argmaxQ train_function.name s_next,
    FunctionCall.qValue target_function.name s_next a_next])

/-- Number of `argmax_q` invocations on the model named `name` in a trace. -/
def countArgmax (S A : Type) (name : String) (calls : List (FunctionCall S A)) : ℕ :=
  (calls.filter (fun c => match c with
    | FunctionCall.argmaxQ n _ => n == name
    | _ => false)).length

/-- Number of `q` invocations on the model named `name` in a trace. -/
def countQ (S A : Type) (name : String) (calls : List (FunctionCall S A)) : ℕ :=
  (calls.filter (fun c => match c with
    | FunctionCall.qValue n _ _ => n == name
    | _ => false)).length

end DDQN

/-- Minimum of a stacked list of values along the stacking axis
(`NF.min(..., axis=0)` at one position); 0 is never reached on the
ensembles we use (they are nonempty). -/
def listMin : List ℚ → ℚ
  | [] => 0
  | v :: rest => rest.foldl min v

/-- Maximum of a stacked list of values along the stacking axis
(`NF.max(..., axis=0)` at one position). -/
def listMax : List ℚ → ℚ
  | [] => 0
  | v :: rest => rest.foldl max v

/-- `NF.max(..., axis=1)` over one row of an `(B, n)` tensor viewed as a
function of the column index. -/
def rowMax (n : ℕ) (f : ℕ → ℚ) : ℚ := listMax ((List.range n).map f)

namespace BCQ

/-- `nnabla_rl.functions.repeat(x, repeats, axis=0)` acting on the row (leading)
axis, mirroring the source's reshape / broadcast / reshape composition:
rows are viewed as an `(B, 1, ...)` block tensor, broadcast along the inserted
axis to `(B, repeats, ...)`, and flattened back to `(B * repeats, ...)` in
row-major order. -/
def repeatRows (α : Type) (x : ℕ → α) (repeats : ℕ) : ℕ → α :=
  let reshaped : ℕ × ℕ → α := fun p => x p.1
  let broadcasted : ℕ × ℕ → α := fun p => reshaped (p.1, 0)
  fun r => broadcasted (r / repeats, r % repeats)

/-- `_QFunctionBCQTraining.compute_target`: the next states are repeated
`num_action_samples` times along the batch axis, the target policy produces one
candidate action per repeated row (the policy evaluates rows independently, so
it is a function of the row index — carrying that row's perturbation noise —
and the row's state), every target critic is evaluated on every candidate, the
per-candidate score is `lmb * min_ensemble + (1 - lmb) * max_ensemble`, the
per-sample value is the max over that sample's candidates (row `i` of the
`(B, num_action_samples)` reshape), and the result is
`reward + gamma * non_terminal * next_q_value`. -/
def compute_target (S A : Type) (target_functions : List (S → A → ℚ)) (target_policy : ℕ → S → A)
    (num_action_samples : ℕ) (lmb gamma : ℚ) (reward non_terminal : ℕ → ℚ)
    (s_next : ℕ → S) : ℕ → ℚ :=
  let s_next_rep := repeatRows S s_next num_action_samples
  let a_next_rep := fun r => target_policy r (s_next_rep r)
  let q_values := target_functions.map (fun q => fun r => q (s_next_rep r) (a_next_rep r))
  let weighted_q_minmax := fun r =>
    lmb * listMin (q_values.map (fun qv => qv r)) +
      (1 - lmb) * listMax (q_values.map (fun qv => qv r))
  let next_q_value := fun i =>
    rowMax num_action_samples (fun c => weighted_q_minmax (i * num_action_samples + c))
  fun i => reward i + gamma * non_terminal i * next_q_value i

end BCQ

namespace TD3

/-- Elementwise `NF.minimum2` on row tensors. -/
def minimum2 (f g : ℕ → ℚ) : ℕ → ℚ := fun i => min (f i) (g i)

/-- `nnabla_rl.functions.minimum_n`: errors on an empty list, returns the single
variable, the pairwise minimum of two, or the left fold of pairwise minima. -/
def minimum_n (vars : List (ℕ → ℚ)) : Except String (ℕ → ℚ) :=
  match vars with
  | [] => .error "Variables must have at least 1 variable"
  | [v] => .ok v
  | [v1, v2] => .ok (minimum2 v1 v2)
  | v1 :: v2 :: rest => .ok (rest.foldl minimum2 (minimum2 v1 v2))

/-- `_QFunctionTD3Training._compute_noisy_action` per batch row and action
dimension: the target policy's action plus the sampled noise clipped to
`[-train_action_noise_abs, train_action_noise_abs]`.  The Gaussian draw
`NF.randn(sigma, ...)` is modelled as the arbitrary input `noise`. -/
def compute_noisy_action (S : Type) (target_policy : S → ℕ → ℚ) (noise : ℕ → ℕ → ℚ)
    (train_action_noise_abs : ℚ) (s_next : ℕ → S) : ℕ → ℕ → ℚ :=
  fun i d => target_policy (s_next i) d +
    clipv (noise i d) (-train_action_noise_abs) train_action_noise_abs

/-- `_QFunctionTD3Training.compute_target`: evaluates every target critic on the
noisy next action, folds them with `minimum_n`, and returns
`reward + gamma * non_terminal * target_q`. -/
def compute_target (S : Type) (target_functions : List (S → (ℕ → ℚ) → ℚ))
    (target_policy : S → ℕ → ℚ) (noise : ℕ → ℕ → ℚ) (train_action_noise_abs : ℚ)
    (gamma : ℚ) (reward non_terminal : ℕ → ℚ) (s_next : ℕ → S) :
    Except String (ℕ → ℚ) :=
  let a_next := compute_noisy_action S target_policy noise train_action_noise_abs s_next
  let q_values := target_functions.map (fun q => fun i => q (s_next i) (a_next i))
  (minimum_n q_values).map
    (fun target_q => fun i => reward i + gamma * non_terminal i * target_q i)

end TD3

namespace ICML2015TRPO

/-- `gamma_seq = [gamma**i for i in range(episode_length)]` (Python `0.0 ** 0 = 1.0`). -/
def gamma_seq (gamma : ℚ) : ℕ → ℚ := fun i => gamma ^ i

/-- `np.tile(gamma_seq, (L, 1))`: every row is `gamma_seq`. -/
def tiled (gamma : ℚ) : ℕ → ℕ → ℚ := fun _ j => gamma_seq gamma j

/-- `np.tril(M, k=0)`: keep the lower triangle, zero elsewhere. -/
def tril (M : ℕ → ℕ → ℚ) : ℕ → ℕ → ℚ := fun i j => if j ≤ i then M i j else 0

/-- `M[::-1]`: reverse the rows of an `L`-row matrix. -/
def reversedRows (L : ℕ) (M : ℕ → ℕ → ℚ) : ℕ → ℕ → ℚ := fun i j => M (L - 1 - i) j

/-- `left_justified_gamma_seqs = np.tril(np.tile(gamma_seq, (L, 1)), k=0)[::-1]`. -/
def left_justified_gamma_seqs (gamma : ℚ) (L : ℕ) : ℕ → ℕ → ℚ :=
  reversedRows L (tril (tiled gamma))

/-- `left_justified_gamma_seqs[mask]` with `mask = left_justified_gamma_seqs != 0.`:
the nonzero entries in row-major order. -/
def masked_values (gamma : ℚ) (L : ℕ) : List ℚ :=
  (List.range L).flatMap (fun i => (List.range L).filterMap (fun j =>
    if left_justified_gamma_seqs gamma L i j ≠ 0
    then some (left_justified_gamma_seqs gamma L i j) else none))

/-- `np.triu_indices(L)`: the upper-triangle index pairs in row-major order. -/
def triu_positions (L : ℕ) : List (ℕ × ℕ) :=
  (List.range L).flatMap (fun i => (List.range L).filterMap (fun j =>
    if i ≤ j then some (i, j) else none))

/-- Fancy-index assignment of a value list into an all-zero matrix at the given
positions (in order). -/
def assign_at_positions (positions : List (ℕ × ℕ)) (values : List ℚ) : ℕ → ℕ → ℚ :=
  fun i j => match (positions.zip values).find? (fun pv => pv.1 == (i, j)) with
             | some pv => pv.2
             | none => 0

/-- `ICML2015TRPO._compute_accumulated_reward`, including numpy's broadcasting
rule for the fancy assignment
`gamma_seqs[np.triu_indices(L)] = left_justified_gamma_seqs[mask]`: the value
array must have as many elements as there are upper-triangle positions (or a
single element, which broadcasts), otherwise numpy raises a `ValueError`. -/
def compute_accumulated_reward (reward_sequence : List ℚ) (gamma : ℚ) :
    Except String (List ℚ) :=
  let episode_length := reward_sequence.length
  let vals := masked_values gamma episode_length
  let pos := triu_positions episode_length
  if vals.length = pos.length then
    let gamma_seqs := assign_at_positions pos vals
    .ok ((List.range episode_length).map (fun t =>
      ∑ j in Finset.range episode_length, reward_sequence.getD j 0 * gamma_seqs t j))
  else if vals.length = 1 then
    let gamma_seqs := fun i j => if (i, j) ∈ pos then vals.headD 0 else 0
    .ok ((List.range episode_length).map (fun t =>
      ∑ j in Finset.range episode_length, reward_sequence.getD j 0 * gamma_seqs t j))
  else
    .error "shape mismatch: value array could not be broadcast to indexing result"

end ICML2015TRPO

namespace AdvNorm

/-- An IEEE-style value as produced by numpy float division: a finite value,
`nan`, or a signed infinity.  Only division can leave the finite range here. -/
inductive NpFloat where
  | fin (x : ℝ)
  | nan
  | pinf
  | ninf

/-- numpy float division of finite operands: `0/0 = nan`, `x/0 = +-inf` for
`x != 0` (no exception is raised), otherwise exact division. -/
noncomputable def npDiv (a b : ℝ) : NpFloat :=
  if b = 0 then (if a = 0 then NpFloat.nan else if 0 < a then NpFloat.pinf else NpFloat.ninf)
  else NpFloat.fin (a / b)

/-- `np.mean` of a batch. -/
noncomputable def npMean (xs : List ℝ) : ℝ := xs.sum / xs.length

/-- `np.std` of a batch: `sqrt(mean((x - mean)^2))`. -/
noncomputable def npStd (xs : List ℝ) : ℝ :=
  Real.sqrt (npMean (xs.map (fun x => (x - npMean xs) ^ 2)))

/-- The advantage post-processing shared verbatim by
`TRPO._compute_v_target_and_advantage` and
`GAIL._compute_v_target_and_advantage`:
`adv_batch = (adv_batch - adv_mean) / adv_std` with no epsilon guard and no
error branch. -/
noncomputable def normalize_advantages (adv_batch : List ℝ) : List NpFloat :=
  let adv_mean := npMean adv_batch
  let adv_std := npStd adv_batch
  adv_batch.map (fun a => npDiv (a - adv_mean) adv_std)

end AdvNorm

namespace ModelCopy

/-- The global nnabla parameter registry: entries keyed by (scope, name) with
their data, in creation order.  Real registries are dicts, so keys within one
scope are unique. -/
abbrev ParamStore : Type := List ((String × String) × ℚ)

/-- `nn.parameter.get_parameter(name)` inside `nn.parameter_scope(scope)`. -/
def get_parameter (store : ParamStore) (scope param_name : String) : Option ℚ :=
  (store.find? (fun e => decide (e.1 = (scope, param_name)))).map (fun e => e.2)

/-- `Model.get_parameters(grad_only=False)`: the (name, data) pairs registered
under the model's scope, in registry order. -/
def get_parameters (store : ParamStore) (scope : String) : List (String × ℚ) :=
  store.filterMap (fun e => if e.1.1 = scope then some (e.1.2, e.2) else none)

/-- A model as far as `deepcopy` observes it: its parameter-scope name. -/
structure RLModel where
  scope_name : String
deriving DecidableEq

/-- The two exception kinds `Model.deepcopy` can raise. -/
inductive DeepcopyError where
  | valueError
  | runtimeError
deriving DecidableEq

/-- The parameter-copy loop of `Model.deepcopy`: for each source parameter in
order, raise `RuntimeError` if a parameter of that name already exists under
the new scope, else `get_parameter_or_create` it there with the source data as
initializer. -/
def create_params (new_scope_name : String) (params : List (String × ℚ))
    (store : ParamStore) : Except DeepcopyError ParamStore :=
  match params with
  | [] => .ok store
  | (param_name, d) :: rest =>
    match get_parameter store new_scope_name param_name with
    | some _ => .error DeepcopyError.runtimeError
    | none =>
      create_params new_scope_name rest
        (List.append store [((new_scope_name, param_name), d)])

/-- `Model.deepcopy(new_scope_name)`: raises `ValueError` when the new scope
equals the model's own, otherwise copies the model object, renames its scope,
and copies every source parameter into the new scope. -/
def deepcopy (store : ParamStore) (m : RLModel) (new_scope_name : String) :
    Except DeepcopyError (RLModel × ParamStore) :=
  if new_scope_name = m.scope_name then .error DeepcopyError.valueError
  else
    (create_params new_scope_name (get_parameters store m.scope_name) store).map
      (fun store' => ({ scope_name := new_scope_name }, store'))

end ModelCopy

/-- The clipped value stays between the bounds whenever they are ordered. -/
theorem clipv_bounds (x lo hi : ℚ) (h : lo ≤ hi) : lo ≤ clipv x lo hi ∧ clipv x lo hi ≤ hi := by
  unfold clipv
  exact ⟨le_min (le_max_right _ _) h, min_le_right _ _⟩

/-- The continuous bin index is clipped into `[0, N-1]`. -/
theorem bjOf_mem (N : ℕ) (hN : 2 ≤ N) (v_min v_max tz : ℚ) :
    0 ≤ C51.bjOf N v_min v_max tz ∧ C51.bjOf N v_min v_max tz ≤ (N : ℚ) - 1 := by
  have h2 : (2 : ℚ) ≤ (N : ℚ) := by exact_mod_cast hN
  exact clipv_bounds _ 0 ((N : ℚ) - 1) (by linarith)

/-- Floor and ceiling of the clipped bin index are valid scatter indices. -/
theorem bjOf_floor_ceil_mem (N : ℕ) (hN : 2 ≤ N) (v_min v_max tz : ℚ) :
    (0 ≤ ⌊C51.bjOf N v_min v_max tz⌋ ∧ ⌊C51.bjOf N v_min v_max tz⌋ < (N : ℤ)) ∧
    (0 ≤ ⌈C51.bjOf N v_min v_max tz⌉ ∧ ⌈C51.bjOf N v_min v_max tz⌉ < (N : ℤ)) := by
  obtain ⟨h0, h1⟩ := bjOf_mem N hN v_min v_max tz
  have hcast : ((N : ℚ) - 1) = (((N : ℤ) - 1 : ℤ) : ℚ) := by push_cast; ring
  constructor
  · constructor
    · exact Int.le_floor.mpr (by exact_mod_cast h0)
    · have : ⌊C51.bjOf N v_min v_max tz⌋ ≤ (N : ℤ) - 1 := by
        have := Int.floor_le_floor (α := ℚ) (hcast ▸ h1)
        rwa [Int.floor_intCast] at this
      omega
  · constructor
    · have h := le_trans h0 (Int.le_ceil _)
      exact_mod_cast h
    · have : ⌈C51.bjOf N v_min v_max tz⌉ ≤ (N : ℤ) - 1 :=
        Int.ceil_le.mpr (hcast ▸ h1)
      omega

/-- Summing an integer-indexed indicator over `range N` picks out the value. -/
theorem sum_range_indicator_int (N : ℕ) (k : ℤ) (h0 : 0 ≤ k) (hN : k < (N : ℤ)) (x : ℚ) :
    ∑ i in Finset.range N, (if k = (i : ℤ) then x else 0) = x := by
  have hk : k.toNat < N := by omega
  have hcong : ∀ i ∈ Finset.range N,
      (if k = (i : ℤ) then x else 0) = (if i = k.toNat then x else 0) := by
    intro i _
    have hiff : (k = (i : ℤ)) ↔ (i = k.toNat) := by omega
    simp [hiff]
  rw [Finset.sum_congr rfl hcong,
    Finset.sum_ite_eq' (Finset.range N) k.toNat (fun _ => x)]
  simp [Finset.mem_range, hk]

/-- Unfolding of `compute_projection` into a per-atom sum of the two scattered
contributions. -/
theorem compute_projection_eq_atom_sum (N : ℕ) (v_min v_max : ℚ) (Tz pj : ℕ → ℚ) (i : ℤ) :
    C51.compute_projection N v_min v_max Tz pj i =
      ∑ j in Finset.range N,
        ((if ⌊C51.bjOf N v_min v_max (Tz j)⌋ = i then
            pj j * (((1 + ⌊C51.bjOf N v_min v_max (Tz j)⌋ : ℤ) : ℚ) - C51.bjOf N v_min v_max (Tz j))
          else 0) +
         (if ⌈C51.bjOf N v_min v_max (Tz j)⌉ = i then
            pj j * (C51.bjOf N v_min v_max (Tz j) - ((⌊C51.bjOf N v_min v_max (Tz j)⌋ : ℤ) : ℚ))
          else 0)) := by
  unfold C51.compute_projection C51.scatter_add
  simp only [zero_add]
  rw [← Finset.sum_add_distrib]

/-- Total projected mass of one sample equals the total input probability mass. -/
theorem compute_projection_total_mass (N : ℕ) (hN : 2 ≤ N) (v_min v_max : ℚ) (Tz pj : ℕ → ℚ) :
    ∑ i in Finset.range N, C51.compute_projection N v_min v_max Tz pj (i : ℤ) =
      ∑ j in Finset.range N, pj j := by
  have hrw : ∀ i ∈ Finset.range N,
      C51.compute_projection N v_min v_max Tz pj (i : ℤ) =
        ∑ j in Finset.range N,
          ((if ⌊C51.bjOf N v_min v_max (Tz j)⌋ = (i : ℤ) then
              pj j * (((1 + ⌊C51.bjOf N v_min v_max (Tz j)⌋ : ℤ) : ℚ) - C51.bjOf N v_min v_max (Tz j))
            else 0) +
           (if ⌈C51.bjOf N v_min v_max (Tz j)⌉ = (i : ℤ) then
              pj j * (C51.bjOf N v_min v_max (Tz j) - ((⌊C51.bjOf N v_min v_max (Tz j)⌋ : ℤ) : ℚ))
            else 0)) := by
    intro i _
    exact compute_projection_eq_atom_sum N v_min v_max Tz pj (i : ℤ)
  rw [Finset.sum_congr rfl hrw, Finset.sum_comm]
  refine Finset.sum_congr rfl ?_
  intro j _
  obtain ⟨⟨hf0, hfN⟩, ⟨hc0, hcN⟩⟩ := bjOf_floor_ceil_mem N hN v_min v_max (Tz j)
  rw [Finset.sum_add_distrib,
    sum_range_indicator_int N _ hf0 hfN _,
    sum_range_indicator_int N _ hc0 hcN _]
  push_cast
  ring

/-- C1: in `_compute_projection`, for every atom with probability mass `p` and
clipped continuous bin index `b` in `[0, N-1]`, the contribution
`((1 + floor b) - b) * p` scattered at `floor b` and the contribution
`(b - floor b) * p` scattered at `ceil b` sum to exactly `p` (also when `b` is
integral), and hence the total projected probability mass of each sample equals
the total input probability mass. -/
theorem c51_projection_mass_conservation (N : ℕ) (hN : 2 ≤ N) (v_min v_max : ℚ)
    (hv : v_min < v_max) (Tz pj : ℕ → ℚ) :
    (∀ tz p : ℚ,
      p * ((1 + (⌊C51.bjOf N v_min v_max tz⌋ : ℚ)) - C51.bjOf N v_min v_max tz) +
        p * (C51.bjOf N v_min v_max tz - (⌊C51.bjOf N v_min v_max tz⌋ : ℚ)) = p) ∧
    ∑ i in Finset.range N, C51.compute_projection N v_min v_max Tz pj (i : ℤ) =
      ∑ j in Finset.range N, pj j := by
  constructor
  · intro tz p
    ring
  · exact compute_projection_total_mass N hN v_min v_max Tz pj

/-- Concrete instantiation of `c51_projection_mass_conservation`. -/
theorem c51_projection_mass_conservation_witness :
    (∀ tz p : ℚ,
      p * ((1 + (⌊C51.bjOf 3 0 1 tz⌋ : ℚ)) - C51.bjOf 3 0 1 tz) +
        p * (C51.bjOf 3 0 1 tz - (⌊C51.bjOf 3 0 1 tz⌋ : ℚ)) = p) ∧
    ∑ i in Finset.range 3,
        C51.compute_projection 3 0 1 (fun j => (j : ℚ)) (fun j => if j = 0 then 1 else 0) (i : ℤ) =
      ∑ j in Finset.range 3, (if j = 0 then (1 : ℚ) else 0) :=
  c51_projection_mass_conservation 3 (by decide) 0 1 (by norm_num)
    (fun j => (j : ℚ)) (fun j => if j = 0 then 1 else 0)

/-- With `reward = 0` and `non_terminal = 0` every unprojected atom collapses to
`clip(0, v_min, v_max)`, so `compute_target` reduces to projecting a point mass. -/
theorem compute_target_terminal_collapses (N : ℕ) (v_min v_max gamma : ℚ) (pj : ℕ → ℚ) :
    C51.compute_target N v_min v_max gamma 0 0 pj =
      C51.compute_projection N v_min v_max (fun _ => clipv 0 v_min v_max) pj := by
  show C51.compute_projection N v_min v_max
      (fun j => clipv (0 + 0 * gamma * C51.z_support N v_min v_max j) v_min v_max) pj = _
  norm_num

/-- C2: for terminal transitions (`reward = 0`, `non_terminal = 0`) the C51
`compute_target` equals the clipped, binned distribution of the (zero) return —
no bootstrapping of next-state values — and whenever the input atom
probabilities sum to 1 the projected probabilities sum to 1, for arbitrary
`v_min < v_max` and `N ≥ 2`. -/
theorem c51_terminal_target_is_binned_clipped_return (N : ℕ) (hN : 2 ≤ N) (v_min v_max : ℚ)
    (hv : v_min < v_max) (gamma : ℚ) (pj : ℕ → ℚ)
    (hp : ∑ j in Finset.range N, pj j = 1) :
    (∀ i : ℤ, C51.compute_target N v_min v_max gamma 0 0 pj i =
        C51.specBinnedReturn N v_min v_max (clipv 0 v_min v_max) i) ∧
    ∑ i in Finset.range N, C51.compute_target N v_min v_max gamma 0 0 pj (i : ℤ) = 1 := by
  rw [compute_target_terminal_collapses N v_min v_max gamma pj]
  constructor
  · intro i
    rw [compute_projection_eq_atom_sum]
    show _ = C51.specBinnedReturn N v_min v_max (clipv 0 v_min v_max) i
    unfold C51.specBinnedReturn
    rw [Finset.sum_add_distrib]
    have e1 : ∑ j in Finset.range N,
        (if ⌊C51.bjOf N v_min v_max (clipv 0 v_min v_max)⌋ = i then
          pj j * (((1 + ⌊C51.bjOf N v_min v_max (clipv 0 v_min v_max)⌋ : ℤ) : ℚ)
            - C51.bjOf N v_min v_max (clipv 0 v_min v_max)) else 0) =
        (if ⌊C51.bjOf N v_min v_max (clipv 0 v_min v_max)⌋ = i then
          ((1 + ⌊C51.bjOf N v_min v_max (clipv 0 v_min v_max)⌋ : ℤ) : ℚ)
            - C51.bjOf N v_min v_max (clipv 0 v_min v_max) else 0) := by
      by_cases h : ⌊C51.bjOf N v_min v_max (clipv 0 v_min v_max)⌋ = i
      · simp only [h, if_true]
        rw [← Finset.sum_mul, hp, one_mul]
      · simp [h]
    have e2 : ∑ j in Finset.range N,
        (if ⌈C51.bjOf N v_min v_max (clipv 0 v_min v_max)⌉ = i then
          pj j * (C51.bjOf N v_min v_max (clipv 0 v_min v_max)
            - ((⌊C51.bjOf N v_min v_max (clipv 0 v_min v_max)⌋ : ℤ) : ℚ)) else 0) =
        (if ⌈C51.bjOf N v_min v_max (clipv 0 v_min v_max)⌉ = i then
          C51.bjOf N v_min v_max (clipv 0 v_min v_max)
            - ((⌊C51.bjOf N v_min v_max (clipv 0 v_min v_max)⌋ : ℤ) : ℚ) else 0) := by
      by_cases h : ⌈C51.bjOf N v_min v_max (clipv 0 v_min v_max)⌉ = i
      · simp only [h, if_true]
        rw [← Finset.sum_mul, hp, one_mul]
      · simp [h]
    rw [e1, e2]
    push_cast
    ring_nf
  · rw [compute_projection_total_mass N hN v_min v_max _ pj]
    exact hp

/-- Concrete instantiation of `c51_terminal_target_is_binned_clipped_return`. -/
theorem c51_terminal_target_witness :
    (∀ i : ℤ, C51.compute_target 2 (-1) 1 (9/10) 0 0 (fun j => if j = 1 then 1 else 0) i =
        C51.specBinnedReturn 2 (-1) 1 (clipv 0 (-1) 1) i) ∧
    ∑ i in Finset.range 2,
        C51.compute_target 2 (-1) 1 (9/10) 0 0 (fun j => if j = 1 then 1 else 0) (i : ℤ) = 1 :=
  c51_terminal_target_is_binned_clipped_return 2 (by decide) (-1) 1 (by norm_num) (9/10)
    (fun j => if j = 1 then 1 else 0) (by simp [Finset.sum_range_succ])

/-- One successful `train` step, characterized: it never fails once models and
training variables are present, and it reallocates/rebuilds exactly when the
incoming batch size differs from the allocated one. -/
theorem train_step_characterization (s : Trainer.TrainerState) (ms : List String) (prev B : ℕ)
    (hm : s.models = some ms) (hv : s.tv_batch_size = some prev) :
    ∃ s', Trainer.train s B = .ok s' ∧
      s'.models = s.models ∧
      s'.train_count = s.train_count + 1 ∧
      s'.updates = s.updates + 1 ∧
      (B ≠ prev → s'.tv_batch_size = some B ∧ s'.graph_builds = s.graph_builds ++ [B]) ∧
      (B = prev → s'.tv_batch_size = s.tv_batch_size ∧ s'.graph_builds = s.graph_builds) := by
  unfold Trainer.train
  rw [hm]
  by_cases hB : B = prev
  · subst hB
    simp [hv]
  · simp [hv, hB]

/-- C3: after `setup_training`, two successive `train` calls with batch sizes
`B1 ≠ B2` both succeed; `train` compares the incoming batch's leading dimension
with the allocated `TrainingVariables` batch size, reallocates the variables
and rebuilds the graph exactly when they differ, and reuses both unchanged when
they are equal. -/
theorem trainer_rebuilds_graph_exactly_on_resize (s : Trainer.TrainerState) (ms : List String)
    (prev B1 B2 : ℕ) (hm : s.models = some ms) (hv : s.tv_batch_size = some prev)
    (hne : B1 ≠ B2) :
    ∃ s1 s2,
      Trainer.train s B1 = .ok s1 ∧
      Trainer.train s1 B2 = .ok s2 ∧
      s1.tv_batch_size = some B1 ∧
      s2.tv_batch_size = some B2 ∧
      (B1 ≠ prev → s1.graph_builds = s.graph_builds ++ [B1]) ∧
      (B1 = prev → s1.graph_builds = s.graph_builds ∧ s1.tv_batch_size = s.tv_batch_size) ∧
      s2.graph_builds = s1.graph_builds ++ [B2] := by
  obtain ⟨s1, hok1, hmods1, _, _, hdiff1, hsame1⟩ :=
    train_step_characterization s ms prev B1 hm hv
  have htv1 : s1.tv_batch_size = some B1 := by
    by_cases hB : B1 = prev
    · rw [(hsame1 hB).1, hv, hB]
    · exact (hdiff1 hB).1
  obtain ⟨s2, hok2, _, _, _, hdiff2, _⟩ :=
    train_step_characterization s1 ms B1 B2 (hmods1.trans hm) htv1
  exact ⟨s1, s2, hok1, hok2, htv1, (hdiff2 (Ne.symm hne)).1, fun h => (hdiff1 h).2,
    fun hB => ⟨(hsame1 hB).2, (hsame1 hB).1⟩, (hdiff2 (Ne.symm hne)).2⟩

/-- Concrete instantiation of `trainer_rebuilds_graph_exactly_on_resize` right
after `setup_training` (allocated batch size 1), with `B1 = 1` and `B2 = 4`. -/
theorem trainer_rebuilds_graph_witness :
    ∃ s1 s2,
      Trainer.train (Trainer.setup_training ⟨none, 0, none, [], 0, 0, 0⟩ ["q"]) 1 = .ok s1 ∧
      Trainer.train s1 4 = .ok s2 ∧
      s1.tv_batch_size = some 1 ∧
      s2.tv_batch_size = some 4 ∧
      (1 ≠ 1 → s1.graph_builds =
        (Trainer.setup_training ⟨none, 0, none, [], 0, 0, 0⟩ ["q"]).graph_builds ++ [1]) ∧
      (1 = 1 → s1.graph_builds =
          (Trainer.setup_training ⟨none, 0, none, [], 0, 0, 0⟩ ["q"]).graph_builds ∧
        s1.tv_batch_size =
          (Trainer.setup_training ⟨none, 0, none, [], 0, 0, 0⟩ ["q"]).tv_batch_size) ∧
      s2.graph_builds = s1.graph_builds ++ [4] :=
  trainer_rebuilds_graph_exactly_on_resize
    (Trainer.setup_training ⟨none, 0, none, [], 0, 0, 0⟩ ["q"]) ["q"] 1 1 4 rfl rfl (by decide)

/-- C9: calling `train` before `setup_training` raises immediately, with the
trainer state untouched (no counter increment, no hook call, no model update);
once `setup_training` has run — and from any state reached afterwards — `train`
does not raise this precondition error. -/
theorem train_before_setup_raises (s : Trainer.TrainerState) (b : ℕ) (ms : List String) :
    (s.models = none →
      Trainer.train s b = .error ("Call setup_training() first. Model is not set!", s)) ∧
    (∃ s', Trainer.train (Trainer.setup_training s ms) b = .ok s') ∧
    (∀ ms' : List String, s.models = some ms' → s.tv_batch_size ≠ none →
      ∃ s', Trainer.train s b = .ok s') ∧
    (∀ s2, Trainer.train s b = .ok s2 → s2.models = s.models ∧ s2.tv_batch_size ≠ none) := by
  refine ⟨fun hnone => ?_, ?_, fun ms' hm htv => ?_, fun s2 hok => ?_⟩
  · unfold Trainer.train
    rw [hnone]
  · obtain ⟨s', hok, _⟩ := train_step_characterization (Trainer.setup_training s ms) ms 1 b
      (by simp [Trainer.setup_training]) (by simp [Trainer.setup_training])
    exact ⟨s', hok⟩
  · obtain ⟨prev, hprev⟩ := Option.ne_none_iff_exists'.mp htv
    obtain ⟨s', hok, _⟩ := train_step_characterization s ms' prev b hm hprev
    exact ⟨s', hok⟩
  · revert hok
    unfold Trainer.train
    cases hm : s.models with
    | none => intro h; cases h
    | some ms' =>
      cases htv : s.tv_batch_size with
      | none => simp
      | some prev =>
        by_cases hB : b = prev
        · subst hB
          simp only [htv, hm]
          intro h
          rw [Except.ok.injEq] at h
          subst h
          simp
        · simp only [htv, hm, hB, if_neg, ne_eq, not_false_iff, if_true]
          intro h
          rw [Except.ok.injEq] at h
          subst h
          simp

/-- Concrete instantiation of `train_before_setup_raises`: the fresh trainer
state raises, and the same state after `setup_training` trains fine. -/
theorem train_before_setup_raises_witness :
    Trainer.train ⟨none, 0, none, [], 0, 0, 0⟩ 5 =
      .error ("Call setup_training() first. Model is not set!", ⟨none, 0, none, [], 0, 0, 0⟩) ∧
    ∃ s', Trainer.train (Trainer.setup_training ⟨none, 0, none, [], 0, 0, 0⟩ ["model"]) 5 =
      .ok s' :=
  ⟨(train_before_setup_raises ⟨none, 0, none, [], 0, 0, 0⟩ 5 ["model"]).1 rfl,
   (train_before_setup_raises ⟨none, 0, none, [], 0, 0, 0⟩ 5 ["model"]).2.1⟩

/-- C4: the DDQN Q-function target equals
`reward + gamma * non_terminal * target_q(s_next, argmax_a q_online(s_next, a))`
with the argmax action selected by the online (train) network and evaluated by
the distinct target network; per `compute_target` call, `argmax_q` is invoked
exactly once, on the train function, and `q` exactly once, on the target
function. -/
theorem ddqn_double_q_target (S A : Type)
    (train_function target_function : DDQN.QFunctionModel S A)
    (gamma : ℚ) (reward non_terminal : ℕ → ℚ) (s_next : S)
    (hdistinct : train_function.name ≠ target_function.name) :
    (∀ i, (DDQN.compute_target S A train_function target_function
        gamma reward non_terminal s_next).1 i =
      reward i + gamma * non_terminal i *
        target_function.q s_next (train_function.argmax_q s_next) i) ∧
    DDQN.countArgmax S A train_function.name
      (DDQN.compute_target S A train_function target_function
        gamma reward non_terminal s_next).2 = 1 ∧
    DDQN.countQ S A target_function.name
      (DDQN.compute_target S A train_function target_function
        gamma reward non_terminal s_next).2 = 1 ∧
    DDQN.countArgmax S A target_function.name
      (DDQN.compute_target S A train_function target_function
        gamma reward non_terminal s_next).2 = 0 ∧
    DDQN.countQ S A train_function.name
      (DDQN.compute_target S A train_function target_function
        gamma reward non_terminal s_next).2 = 0 := by
  have h1 : (train_function.name == target_function.name) = false :=
    beq_eq_false_iff_ne.mpr hdistinct
  have h2 : (target_function.name == train_function.name) = false :=
    beq_eq_false_iff_ne.mpr (Ne.symm hdistinct)
  refine ⟨fun i => rfl, ?_, ?_, ?_, ?_⟩ <;>
    simp [DDQN.compute_target, DDQN.countArgmax, DDQN.countQ, List.filter, h1, h2]

/-- Concrete instantiation of `ddqn_double_q_target`. -/
theorem ddqn_double_q_target_witness :
    (∀ i, (DDQN.compute_target ℕ ℕ ⟨"train_q", fun _ => 0, fun _ _ _ => 1⟩
        ⟨"target_q", fun _ => 1, fun _ _ _ => 2⟩ 1 (fun _ => 0) (fun _ => 1) 0).1 i =
      (fun _ : ℕ => (0 : ℚ)) i + 1 * (fun _ : ℕ => (1 : ℚ)) i *
        DDQN.QFunctionModel.q ⟨"target_q", fun _ => 1, fun _ _ _ => 2⟩ 0
          (DDQN.QFunctionModel.argmax_q ⟨"train_q", fun _ => (0 : ℕ), fun _ _ _ => (1 : ℚ)⟩ 0) i) ∧
    DDQN.countArgmax ℕ ℕ "train_q"
      (DDQN.compute_target ℕ ℕ ⟨"train_q", fun _ => 0, fun _ _ _ => 1⟩
        ⟨"target_q", fun _ => 1, fun _ _ _ => 2⟩ 1 (fun _ => 0) (fun _ => 1) 0).2 = 1 ∧
    DDQN.countQ ℕ ℕ "target_q"
      (DDQN.compute_target ℕ ℕ ⟨"train_q", fun _ => 0, fun _ _ _ => 1⟩
        ⟨"target_q", fun _ => 1, fun _ _ _ => 2⟩ 1 (fun _ => 0) (fun _ => 1) 0).2 = 1 ∧
    DDQN.countArgmax ℕ ℕ "target_q"
      (DDQN.compute_target ℕ ℕ ⟨"train_q", fun _ => 0, fun _ _ _ => 1⟩
        ⟨"target_q", fun _ => 1, fun _ _ _ => 2⟩ 1 (fun _ => 0) (fun _ => 1) 0).2 = 0 ∧
    DDQN.countQ ℕ ℕ "train_q"
      (DDQN.compute_target ℕ ℕ ⟨"train_q", fun _ => 0, fun _ _ _ => 1⟩
        ⟨"target_q", fun _ => 1, fun _ _ _ => 2⟩ 1 (fun _ => 0) (fun _ => 1) 0).2 = 0 :=
  ddqn_double_q_target ℕ ℕ ⟨"train_q", fun _ => 0, fun _ _ _ => 1⟩
    ⟨"target_q", fun _ => 1, fun _ _ _ => 2⟩ 1 (fun _ => 0) (fun _ => 1) 0 (by decide)

/-- Row `i * repeats + c` of the repeated tensor is row `i` of the original. -/
theorem repeatRows_index (S : Type) (x : ℕ → S) (repeats : ℕ) (i c : ℕ) (hc : c < repeats) :
    BCQ.repeatRows S x repeats (i * repeats + c) = x i := by
  have hpos : 0 < repeats := Nat.pos_of_ne_zero (by omega)
  have hdiv : (i * repeats + c) / repeats = i := by
    rw [Nat.add_comm, Nat.add_mul_div_right c i hpos, Nat.div_eq_of_lt hc, Nat.zero_add]
  show x ((i * repeats + c) / repeats) = x i
  rw [hdiv]

/-- C5: the BCQ target is `reward + gamma * non_terminal * next_q` where
`next_q` for sample `i` is the maximum, over that sample's own
`num_action_samples` candidate actions (the repeat/reshape keeps candidates of
one sample grouped in one row), of
`lmb * min_ensemble + (1 - lmb) * max_ensemble` of the target critics evaluated
at `s_next i` and the candidate. -/
theorem bcq_target_max_over_own_candidates (S A : Type)
    (target_functions : List (S → A → ℚ)) (target_policy : ℕ → S → A)
    (num_action_samples : ℕ) (hnas : 0 < num_action_samples)
    (lmb gamma : ℚ) (reward non_terminal : ℕ → ℚ) (s_next : ℕ → S) (i : ℕ) :
    BCQ.compute_target S A target_functions target_policy num_action_samples lmb gamma
        reward non_terminal s_next i =
      reward i + gamma * non_terminal i *
        rowMax num_action_samples (fun c =>
          lmb * listMin (target_functions.map (fun q =>
            q (s_next i) (target_policy (i * num_action_samples + c) (s_next i)))) +
          (1 - lmb) * listMax (target_functions.map (fun q =>
            q (s_next i) (target_policy (i * num_action_samples + c) (s_next i))))) := by
  unfold BCQ.compute_target rowMax
  simp only [List.map_map]
  refine congrArg (fun t => reward i + gamma * non_terminal i * listMax t) ?_
  refine List.map_congr_left ?_
  intro c hc
  show lmb * listMin (target_functions.map (fun q =>
      q (BCQ.repeatRows S s_next num_action_samples (i * num_action_samples + c))
        (target_policy (i * num_action_samples + c)
          (BCQ.repeatRows S s_next num_action_samples (i * num_action_samples + c))))) +
    (1 - lmb) * listMax (target_functions.map (fun q =>
      q (BCQ.repeatRows S s_next num_action_samples (i * num_action_samples + c))
        (target_policy (i * num_action_samples + c)
          (BCQ.repeatRows S s_next num_action_samples (i * num_action_samples + c))))) = _
  rw [repeatRows_index S s_next num_action_samples i c (List.mem_range.mp hc)]

/-- Concrete instantiation of `bcq_target_max_over_own_candidates`. -/
theorem bcq_target_witness :
    BCQ.compute_target ℕ ℕ [fun _ _ => (5 : ℚ)] (fun r _ => r) 2 (3/4) 1
        (fun _ => 0) (fun _ => 1) (fun s => s) 1 =
      (fun _ : ℕ => (0 : ℚ)) 1 + 1 * (fun _ : ℕ => (1 : ℚ)) 1 *
        rowMax 2 (fun c =>
          (3/4) * listMin (([fun _ _ => (5 : ℚ)] : List (ℕ → ℕ → ℚ)).map (fun q =>
            q ((fun s : ℕ => s) 1) ((fun r _ => r) (1 * 2 + c) ((fun s : ℕ => s) 1)))) +
          (1 - 3/4) * listMax (([fun _ _ => (5 : ℚ)] : List (ℕ → ℕ → ℚ)).map (fun q =>
            q ((fun s : ℕ => s) 1) ((fun r _ => r) (1 * 2 + c) ((fun s : ℕ => s) 1))))) :=
  bcq_target_max_over_own_candidates ℕ ℕ [fun _ _ => (5 : ℚ)] (fun r _ => r) 2 (by decide)
    (3/4) 1 (fun _ => 0) (fun _ => 1) (fun s => s) 1

/-- `minimum_n` on a nonempty list is the left fold of pairwise minima. -/
theorem minimum_n_cons (v : ℕ → ℚ) (vs : List (ℕ → ℚ)) :
    TD3.minimum_n (v :: vs) = .ok (vs.foldl TD3.minimum2 v) := by
  match vs with
  | [] => rfl
  | [w] => rfl
  | w :: u :: rest => rfl

/-- Pointwise value of the pairwise-minimum fold. -/
theorem foldl_minimum2_apply (vs : List (ℕ → ℚ)) (v : ℕ → ℚ) (i : ℕ) :
    (vs.foldl TD3.minimum2 v) i = listMin ((v :: vs).map (fun f => f i)) := by
  induction vs generalizing v with
  | nil => rfl
  | cons w ws ih =>
    show (ws.foldl TD3.minimum2 (TD3.minimum2 v w)) i = _
    rw [ih]
    rfl

/-- C6: the TD3 target equals `reward + gamma * non_terminal * min_ensemble` of
the target critics at the noisy next action `pi(s_next) + clip(noise, -c, c)`;
the clipped noise stays within `[-c, c]`, and `minimum_n` is the elementwise
left fold of pairwise minima over the whole critic list. -/
theorem td3_target_min_ensemble_clipped_noise (S : Type) (qf : S → (ℕ → ℚ) → ℚ)
    (qfs : List (S → (ℕ → ℚ) → ℚ)) (target_policy : S → ℕ → ℚ) (noise : ℕ → ℕ → ℚ)
    (c gamma : ℚ) (hc : 0 ≤ c) (reward non_terminal : ℕ → ℚ) (s_next : ℕ → S) :
    (TD3.compute_target S (qf :: qfs) target_policy noise c gamma reward non_terminal s_next =
      .ok (fun i => reward i + gamma * non_terminal i *
        listMin ((qf :: qfs).map (fun q =>
          q (s_next i) (TD3.compute_noisy_action S target_policy noise c s_next i))))) ∧
    (∀ i d, -c ≤ TD3.compute_noisy_action S target_policy noise c s_next i d -
        target_policy (s_next i) d ∧
      TD3.compute_noisy_action S target_policy noise c s_next i d -
        target_policy (s_next i) d ≤ c) ∧
    (∀ (v : ℕ → ℚ) (vs : List (ℕ → ℚ)),
      TD3.minimum_n (v :: vs) = .ok (vs.foldl TD3.minimum2 v)) := by
  refine ⟨?_, fun i d => ?_, minimum_n_cons⟩
  · unfold TD3.compute_target
    simp only [List.map_cons, minimum_n_cons, Except.map]
    refine congrArg Except.ok ?_
    funext i
    rw [foldl_minimum2_apply]
    simp only [List.map_cons, List.map_map]
    rfl
  · have hcc : -c ≤ c := by linarith
    have hb := clipv_bounds (noise i d) (-c) c hcc
    have hsub : TD3.compute_noisy_action S target_policy noise c s_next i d -
        target_policy (s_next i) d = clipv (noise i d) (-c) c := by
      unfold TD3.compute_noisy_action
      ring
    rw [hsub]
    exact hb

/-- Concrete instantiation of `td3_target_min_ensemble_clipped_noise`. -/
theorem td3_target_witness :
    (TD3.compute_target ℕ [fun _ a => a 0] (fun _ _ => 0) (fun _ _ => 2) 1 1
        (fun _ => 0) (fun _ => 1) (fun s => s) =
      .ok (fun i => (fun _ : ℕ => (0 : ℚ)) i + 1 * (fun _ : ℕ => (1 : ℚ)) i *
        listMin (([fun _ a => a 0] : List (ℕ → (ℕ → ℚ) → ℚ)).map (fun q =>
          q ((fun s : ℕ => s) i)
            (TD3.compute_noisy_action ℕ (fun _ _ => 0) (fun _ _ => 2) 1 (fun s => s) i))))) ∧
    (∀ i d, -1 ≤ TD3.compute_noisy_action ℕ (fun _ _ => 0) (fun _ _ => 2) 1 (fun s => s) i d -
        (fun _ : ℕ => fun _ : ℕ => (0 : ℚ)) ((fun s : ℕ => s) i) d ∧
      TD3.compute_noisy_action ℕ (fun _ _ => 0) (fun _ _ => 2) 1 (fun s => s) i d -
        (fun _ : ℕ => fun _ : ℕ => (0 : ℚ)) ((fun s : ℕ => s) i) d ≤ 1) ∧
    (∀ (v : ℕ → ℚ) (vs : List (ℕ → ℚ)),
      TD3.minimum_n (v :: vs) = .ok (vs.foldl TD3.minimum2 v)) :=
  td3_target_min_ensemble_clipped_noise ℕ (fun _ a => a 0) [] (fun _ _ => 0) (fun _ _ => 2)
    1 1 (by norm_num) (fun _ => 0) (fun _ => 1) (fun s => s)

/-- C7 (code bug): with `gamma = 0` and an episode of length 2 the
`_compute_accumulated_reward` boolean mask keeps only the `0^0 = 1` entry of
each row (2 values), which numpy cannot broadcast onto the 3 upper-triangle
positions, so the call raises a `ValueError` instead of returning the raw
rewards; only length-1 episodes survive. -/
theorem accumulated_reward_gamma_zero_crashes :
    ICML2015TRPO.compute_accumulated_reward [1, 2] 0 =
      .error "shape mismatch: value array could not be broadcast to indexing result" ∧
    ICML2015TRPO.compute_accumulated_reward [5] 0 = .ok [5] := by
  constructor
  · rfl
  · unfold ICML2015TRPO.compute_accumulated_reward
    simp [ICML2015TRPO.masked_values, ICML2015TRPO.triu_positions,
      ICML2015TRPO.assign_at_positions, ICML2015TRPO.left_justified_gamma_seqs,
      ICML2015TRPO.reversedRows, ICML2015TRPO.tril, ICML2015TRPO.tiled,
      ICML2015TRPO.gamma_seq, List.range_succ, Finset.sum_range_one,
      List.find?, List.zip]

/-- C8 (code bug): on an all-equal advantage batch the batch standard deviation
is exactly 0 and the unguarded division `(adv - mean) / std` in the TRPO/GAIL
advantage post-processing yields `0 / 0 = NaN` for every entry, silently — the
code has no epsilon guard and raises no error. -/
theorem advantage_normalization_nan_on_zero_std :
    AdvNorm.normalize_advantages [1, 1] = [AdvNorm.NpFloat.nan, AdvNorm.NpFloat.nan] := by
  have hmean : AdvNorm.npMean [1, 1] = 1 := by
    unfold AdvNorm.npMean
    norm_num
  have hstd : AdvNorm.npStd [1, 1] = 0 := by
    unfold AdvNorm.npStd
    rw [show ([(1 : ℝ), 1].map (fun x => (x - AdvNorm.npMean [1, 1]) ^ 2)) = [0, 0] by
      rw [hmean]; norm_num]
    rw [show AdvNorm.npMean [(0 : ℝ), 0] = 0 by unfold AdvNorm.npMean; norm_num]
    exact Real.sqrt_zero
  unfold AdvNorm.normalize_advantages
  rw [hmean, hstd]
  unfold AdvNorm.npDiv
  norm_num

/-- Parameter lookup in an appended registry checks the first part first. -/
theorem get_parameter_append (store l : ModelCopy.ParamStore) (scope n : String) :
    ModelCopy.get_parameter (List.append store l) scope n =
      (ModelCopy.get_parameter store scope n).or (ModelCopy.get_parameter l scope n) := by
  unfold ModelCopy.get_parameter
  show ((store ++ l).find? _).map _ = _
  rw [List.find?_append]
  cases store.find? (fun e => decide (e.1 = (scope, n))) <;> simp [Option.or]

/-- If some source parameter name already exists under the destination scope,
the copy loop raises `RuntimeError`. -/
theorem create_params_error (new_scope_name : String) (params : List (String × ℚ)) :
    ∀ store : ModelCopy.ParamStore,
    (∃ p ∈ params, (ModelCopy.get_parameter store new_scope_name p.1).isSome) →
    ModelCopy.create_params new_scope_name params store =
      .error ModelCopy.DeepcopyError.runtimeError := by
  induction params with
  | nil =>
    intro store h
    obtain ⟨p, hp, _⟩ := h
    cases hp
  | cons hd tl ih =>
    intro store h
    obtain ⟨name0, d⟩ := hd
    show (match ModelCopy.get_parameter store new_scope_name name0 with
      | some _ => Except.error ModelCopy.DeepcopyError.runtimeError
      | none => ModelCopy.create_params new_scope_name tl
          (List.append store [((new_scope_name, name0), d)])) = _
    cases hlook : ModelCopy.get_parameter store new_scope_name name0 with
    | some v => rfl
    | none =>
      obtain ⟨p, hp, hsome⟩ := h
      rcases List.mem_cons.mp hp with heq | htl
      · subst heq
        rw [hlook] at hsome
        cases hsome
      · refine ih _ ⟨p, htl, ?_⟩
        rw [get_parameter_append]
        cases hs : ModelCopy.get_parameter store new_scope_name p.1 with
        | some v => simp [Option.or]
        | none =>
          rw [hs] at hsome
          cases hsome

/-- When no source parameter name exists under the destination scope and the
source names are distinct, the copy loop appends one entry per source
parameter, in order. -/
theorem create_params_ok (new_scope_name : String) (params : List (String × ℚ)) :
    ∀ store : ModelCopy.ParamStore,
    (∀ p ∈ params, ModelCopy.get_parameter store new_scope_name p.1 = none) →
    (params.map Prod.fst).Nodup →
    ModelCopy.create_params new_scope_name params store =
      .ok (List.append store (params.map (fun p => ((new_scope_name, p.1), p.2)))) := by
  induction params with
  | nil =>
    intro store _ _
    show Except.ok store = Except.ok (store ++ ([] : ModelCopy.ParamStore))
    rw [List.append_nil]
  | cons hd tl ih =>
    intro store hnone hnodup
    obtain ⟨name0, d⟩ := hd
    have hlook : ModelCopy.get_parameter store new_scope_name name0 = none :=
      hnone (name0, d) (List.mem_cons_self _ _)
    show (match ModelCopy.get_parameter store new_scope_name name0 with
      | some _ => Except.error ModelCopy.DeepcopyError.runtimeError
      | none => ModelCopy.create_params new_scope_name tl
          (List.append store [((new_scope_name, name0), d)])) = _
    rw [hlook]
    have hname0 : name0 ∉ tl.map Prod.fst := by
      have := List.nodup_cons.mp hnodup
      exact this.1
    rw [ih (List.append store [((new_scope_name, name0), d)]) ?_ (List.nodup_cons.mp hnodup).2]
    · show Except.ok (store ++ [((new_scope_name, name0), d)] ++ _) = _
      rw [List.append_assoc]
      rfl
    · intro p hp
      rw [get_parameter_append, hnone p (List.mem_cons_of_mem _ hp)]
      have hne : p.1 ≠ name0 := by
        intro hcontra
        exact hname0 (hcontra ▸ List.mem_map_of_mem Prod.fst hp)
      show Option.or none _ = none
      rw [Option.none_or]
      unfold ModelCopy.get_parameter
      rw [List.find?_cons_of_neg]
      · rfl
      · simp [hne, Ne.symm hne]

/-- Lookup of a copied parameter block under the destination scope reduces to a
name search in the source parameter list. -/
theorem get_parameter_copied (new_scope_name n : String) (params : List (String × ℚ)) :
    ModelCopy.get_parameter (params.map (fun p => ((new_scope_name, p.1), p.2)))
        new_scope_name n =
      (params.find? (fun p => decide (p.1 = n))).map (fun p => p.2) := by
  induction params with
  | nil => rfl
  | cons hd tl ih =>
    show (ModelCopy.get_parameter
      (((new_scope_name, hd.1), hd.2) :: tl.map (fun p => ((new_scope_name, p.1), p.2)))
      new_scope_name n) = _
    unfold ModelCopy.get_parameter
    by_cases h : hd.1 = n
    · rw [List.find?_cons_of_pos _ (by simp [h]), List.find?_cons_of_pos _ (by simp [h])]
      rfl
    · rw [List.find?_cons_of_neg _ (by simp [h]), List.find?_cons_of_neg _ (by simp [h])]
      exact ih

/-- A copied parameter block is invisible to every other scope. -/
theorem get_parameter_copied_other (new_scope_name scope n : String)
    (params : List (String × ℚ)) (h : scope ≠ new_scope_name) :
    ModelCopy.get_parameter (params.map (fun p => ((new_scope_name, p.1), p.2))) scope n =
      none := by
  unfold ModelCopy.get_parameter
  rw [List.find?_eq_none.mpr]
  · rfl
  · intro e he
    obtain ⟨p, _, rfl⟩ := List.mem_map.mp he
    simp [h, Ne.symm h]

/-- In a list with distinct names, searching for the name of a member finds
that member. -/
theorem find?_name_of_mem (params : List (String × ℚ)) (p : String × ℚ)
    (hmem : p ∈ params) (hnodup : (params.map Prod.fst).Nodup) :
    params.find? (fun q => decide (q.1 = p.1)) = some p := by
  induction params with
  | nil => cases hmem
  | cons hd tl ih =>
    rcases List.mem_cons.mp hmem with heq | htl
    · subst heq
      rw [List.find?_cons_of_pos _ (by simp)]
    · have hhd : hd.1 ≠ p.1 := by
        intro hcontra
        exact (List.nodup_cons.mp hnodup).1 (hcontra ▸ List.mem_map_of_mem Prod.fst htl)
      rw [List.find?_cons_of_neg _ (by simp [hhd])]
      exact ih htl (List.nodup_cons.mp hnodup).2

/-- C10: `Model.deepcopy(new_scope_name)` raises `ValueError` when the new
scope equals the model's own scope; raises `RuntimeError` when some parameter
of the source model already exists under the new scope; and otherwise returns a
model whose scope is `new_scope_name`, with every source parameter freshly
created (with the source data) under the new scope, while every other scope —
including the source model's — is left unchanged. -/
theorem model_deepcopy_contract (store : ModelCopy.ParamStore) (m : ModelCopy.RLModel)
    (new_scope_name : String) :
    (new_scope_name = m.scope_name →
      ModelCopy.deepcopy store m new_scope_name = .error ModelCopy.DeepcopyError.valueError) ∧
    (new_scope_name ≠ m.scope_name →
      (∃ p ∈ ModelCopy.get_parameters store m.scope_name,
        (ModelCopy.get_parameter store new_scope_name p.1).isSome) →
      ModelCopy.deepcopy store m new_scope_name =
        .error ModelCopy.DeepcopyError.runtimeError) ∧
    (new_scope_name ≠ m.scope_name →
      (∀ p ∈ ModelCopy.get_parameters store m.scope_name,
        ModelCopy.get_parameter store new_scope_name p.1 = none) →
      ((ModelCopy.get_parameters store m.scope_name).map Prod.fst).Nodup →
      ∃ store' : ModelCopy.ParamStore,
        ModelCopy.deepcopy store m new_scope_name = .ok (⟨new_scope_name⟩, store') ∧
        (∀ p ∈ ModelCopy.get_parameters store m.scope_name,
          ModelCopy.get_parameter store' new_scope_name p.1 = some p.2) ∧
        (∀ scope n, scope ≠ new_scope_name →
          ModelCopy.get_parameter store' scope n = ModelCopy.get_parameter store scope n)) := by
  refine ⟨fun heq => ?_, fun hne hex => ?_, fun hne hnone hnodup => ?_⟩
  · unfold ModelCopy.deepcopy
    rw [if_pos heq]
  · unfold ModelCopy.deepcopy
    rw [if_neg hne,
      create_params_error new_scope_name (ModelCopy.get_parameters store m.scope_name) store hex]
    rfl
  · refine ⟨List.append store ((ModelCopy.get_parameters store m.scope_name).map
      (fun p => ((new_scope_name, p.1), p.2))), ?_, ?_, ?_⟩
    · unfold ModelCopy.deepcopy
      rw [if_neg hne,
        create_params_ok new_scope_name (ModelCopy.get_parameters store m.scope_name)
          store hnone hnodup]
      rfl
    · intro p hp
      rw [get_parameter_append, hnone p hp, Option.none_or,
        get_parameter_copied, find?_name_of_mem _ p hp hnodup]
      rfl
    · intro scope n hscope
      rw [get_parameter_append,
        get_parameter_copied_other new_scope_name scope n _ hscope, Option.or_none]

/-- Concrete instantiation of `model_deepcopy_contract`: same-scope copy raises
`ValueError`, copying onto an occupied scope raises `RuntimeError`, and a clean
copy creates the parameters under the new scope without touching the source. -/
theorem model_deepcopy_contract_witness :
    ModelCopy.deepcopy [(("src", "w"), 3), (("src", "b"), 4)] ⟨"src"⟩ "src" =
      .error ModelCopy.DeepcopyError.valueError ∧
    ModelCopy.deepcopy [(("src", "w"), 3), (("tgt", "w"), 7)] ⟨"src"⟩ "tgt" =
      .error ModelCopy.DeepcopyError.runtimeError ∧
    (∃ store' : ModelCopy.ParamStore,
      ModelCopy.deepcopy [(("src", "w"), 3), (("src", "b"), 4)] ⟨"src"⟩ "tgt" =
        .ok (⟨"tgt"⟩, store') ∧
      (∀ p ∈ ModelCopy.get_parameters [(("src", "w"), 3), (("src", "b"), 4)] "src",
        ModelCopy.get_parameter store' "tgt" p.1 = some p.2) ∧
      (∀ scope n, scope ≠ "tgt" →
        ModelCopy.get_parameter store' scope n =
          ModelCopy.get_parameter [(("src", "w"), 3), (("src", "b"), 4)] scope n)) :=
  ⟨(model_deepcopy_contract [(("src", "w"), 3), (("src", "b"), 4)] ⟨"src"⟩ "src").1 rfl,
   (model_deepcopy_contract [(("src", "w"), 3), (("tgt", "w"), 7)] ⟨"src"⟩ "tgt").2.1
     (by decide) ⟨("w", 3), by decide, by decide⟩,
   (model_deepcopy_contract [(("src", "w"), 3), (("src", "b"), 4)] ⟨"src"⟩ "tgt").2.2
     (by decide) (by decide) (by decide)⟩
